import Mathlib

/-!
# Verification of the pathforge geometric pipeline

Shallow embedding of the core geometry code of the repository:
the polyline decoder, the bounding-box computation, the spatial
indices (point index and segment index), the densification engine
(adaptive step, interpolation / MLS / Delaunay strategies and the
`densify` dispatcher) and the adaptive terrain-mesh builder.

Conventions used throughout:
* JavaScript 64-bit floats are modelled as exact rationals (`ℚ`);
  where the source computes genuine irrational values (`Math.sqrt`,
  `Math.exp`) the embedding uses `ℝ`.
* The JavaScript `Infinity` / `-Infinity` sentinels used by the
  running-extrema folds are modelled by the type `QInf` below
  (`ℚ` with both a top and a bottom element, `⊤` = `Infinity`,
  `⊥` = `-Infinity`).
* Fallible operations return `Option` / `Except`.
-/

/-- `ℚ` extended with `⊤` (JavaScript `Infinity`) and `⊥`
(JavaScript `-Infinity`).  `min`/`max`/`≤` agree with the IEEE
behaviour of the source's extrema folds on these sentinels. -/
abbrev QInf : Type := WithBot (WithTop ℚ)

/-- Embed a finite value into `QInf`. -/
def qfin (q : ℚ) : QInf := ((q : WithTop ℚ) : WithBot (WithTop ℚ))

/-- JavaScript subtraction of a finite float from a possibly infinite
one (`Infinity - c = Infinity`, `-Infinity - c = -Infinity`). -/
def qsubFin (a : QInf) (c : ℚ) : QInf :=
  match a with
  | none => none
  | some none => some none
  | some (some q) => some (some (q - c))

/-- JavaScript addition of a finite float to a possibly infinite one. -/
def qaddFin (a : QInf) (c : ℚ) : QInf :=
  match a with
  | none => none
  | some none => some none
  | some (some q) => some (some (q + c))

/-- Minimum of a list of rationals (`0` on the empty list, which the
callers never hit: it is only used on lists proved nonempty). -/
def qListMin (l : List ℚ) : ℚ := l.foldl min (l.headD 0)

/-- Maximum of a list of rationals (`0` on the empty list). -/
def qListMax (l : List ℚ) : ℚ := l.foldl max (l.headD 0)

/-!
## Polyline decoder (source: decodePolyline in the map-utils module)

The decoder walks the encoded ASCII string, reading 5-bit groups per
coordinate axis.  Characters are modelled as `List Char`; reading past
the end of the string (JavaScript charCodeAt returning NaN, for which
NaN - 63 = NaN and NaN AND 0x1f = 0) yields the chunk 0.
-/

/-- One 5-bit chunk: the character code minus 63, masked to the low
5 bits with two's-complement semantics (JavaScript bitwise AND). -/
def polylineChunk (chars : List Char) (index : ℕ) : ℕ :=
  match chars.get? index with
  | some c => (((c.toNat : ℤ) - 63).emod 32).toNat
  | none => 0

/-- The source's inner do-while loop.  Faithful to the bug in the
source: the loop condition tests the ACCUMULATED value
(`result >= 0x20`), not the continuation bit of the chunk just read.
`fuel` only bounds the recursion; since the accumulated value after the
first chunk is always < 32, the loop in fact always exits after one
iteration (JavaScript would loop forever only on states this code can
never reach).  The 32-bit wrap of the bitwise-or is kept. -/
def readVarint (chars : List Char) : ℕ → ℕ → ℕ → ℕ → ℕ × ℕ
  | 0, index, shift, result =>
    let b := polylineChunk chars index
    let result := (result ||| (b <<< shift)) % 2 ^ 32
    (result, index + 1)
  | fuel + 1, index, shift, result =>
    let b := polylineChunk chars index
    let result := (result ||| (b <<< shift)) % 2 ^ 32
    let index := index + 1
    if 32 ≤ result then readVarint chars fuel index (shift + 5) result
    else (result, index)

/-- Reinterpret an unsigned 32-bit pattern as a signed int32. -/
def toInt32 (n : ℕ) : ℤ := if n < 2 ^ 31 then (n : ℤ) else (n : ℤ) - 2 ^ 32

/-- The source's sign decoding of one accumulated group value:
`(result & 1) ? ~(result >> 1) : (result >> 1)` on int32 values
(JavaScript `>>` is an arithmetic shift, i.e. floor division by 2,
and `~x = -x - 1`). -/
def signedDelta (r : ℕ) : ℤ :=
  let s := toInt32 r
  if r % 2 = 1 then -(Int.fdiv s 2) - 1 else Int.fdiv s 2

/-- The source's outer while loop: one latitude and one longitude
varint per point, each accumulated as a delta, divided by 1e5 on
output.  `fuel` bounds the recursion; the index advances by at least
two per iteration, so fuel = length + 1 never runs out before the
index passes the end of the string. -/
def decodeLoop (chars : List Char) : ℕ → ℕ → ℤ → ℤ → List (ℚ × ℚ)
  | 0, _, _, _ => []
  | fuel + 1, index, lat, lng =>
    if index < chars.length then
      let r1 := readVarint chars chars.length index 0 0
      let lat := lat + signedDelta r1.1
      let r2 := readVarint chars chars.length r1.2 0 0
      let lng := lng + signedDelta r2.1
      (Rat.divInt lat 100000, Rat.divInt lng 100000) :: decodeLoop chars fuel r2.2 lat lng
    else []

/-- Source: decodePolyline.  Includes the source's hard-coded branch
returning two San Francisco points for the input "test". -/
def decodePolyline (encoded : List Char) : List (ℚ × ℚ) :=
  if encoded = ['t', 'e', 's', 't'] then
    [(Rat.divInt 377749 10000, Rat.divInt (-1224194) 10000),
     (Rat.divInt 377849 10000, Rat.divInt (-1224094) 10000)]
  else
    decodeLoop encoded (encoded.length + 1) 0 0 0

/-!
## Standard polyline encoder

Modelled from the spec: the standard compact polyline encoding
(delta coding, zigzag sign encoding, 5-bit groups with the
continuation top bit, precision 1e-5) used by the external encoder the
repository's data comes from.  Coordinates are taken as integers in
1e-5-degree units, which is the encoding's native precision.
-/

/-- Zigzag sign encoding: negative v becomes -2v - 1, nonnegative v
becomes 2v. -/
def zigzag (v : ℤ) : ℕ := if v < 0 then (-(2 * v) - 1).toNat else (2 * v).toNat

/-- Split an unsigned value into 5-bit groups, low group first, with
bit 0x20 set on every group except the last, then offset by 63.
Structural recursion on a fuel argument (the value itself, which
strictly dominates the number of groups) keeps the definition
kernel-reducible. -/
def encodeUnsignedAux : ℕ → ℕ → List ℕ
  | 0, z => [z + 63]
  | fuel + 1, z => if z < 32 then [z + 63] else (32 + z % 32 + 63) :: encodeUnsignedAux fuel (z / 32)

/-- Split an unsigned value into its 5-bit polyline groups. -/
def encodeUnsigned (z : ℕ) : List ℕ := encodeUnsignedAux z z

/-- Encode one signed delta. -/
def encodeSigned (v : ℤ) : List Char := (encodeUnsigned (zigzag v)).map Char.ofNat

/-- Delta-encode a point sequence given in 1e-5-degree integer units. -/
def encodeDeltas : ℤ × ℤ → List (ℤ × ℤ) → List Char
  | _, [] => []
  | (plat, plng), (lat, lng) :: rest =>
    encodeSigned (lat - plat) ++ encodeSigned (lng - plng) ++ encodeDeltas (lat, lng) rest

/-- The standard polyline encoder (modelled from the spec). -/
def encodePolyline (pts : List (ℤ × ℤ)) : List Char := encodeDeltas (0, 0) pts

/-!
## Bounding box (source: calculateBoundingBox in StravaActivityMapUtils)

An activity is modelled by its decoded route: `none` when the activity
has no summary polyline (the source skips it), `some pts` when it has
one and the external mapbox decoder yields `pts` (a failed decode
yields `some []`).  Elevation stays optional on each decoded point
exactly as in the source.
-/

/-- A decoded route point of the bounding-box module. -/
structure GeoPt where
  lat : ℚ
  lng : ℚ
  elevation : Option ℚ
deriving DecidableEq

/-- The bounding box produced by calculateBoundingBox. -/
structure BBox where
  minLat : ℚ
  maxLat : ℚ
  minLng : ℚ
  maxLng : ℚ
  minElevation : Option ℚ
  maxElevation : Option ℚ
deriving DecidableEq

/-- All decoded points of all activities, in activity order (the
source's nested forEach over activities with a polyline). -/
def routePoints (activities : List (Option (List GeoPt))) : List GeoPt :=
  activities.flatMap fun a => match a with | some pts => pts | none => []

/-- Source: calculateBoundingBox.  Empty activity list returns the
all-zero box; the running extrema start at the Infinity sentinels and
if no point was seen the full lat/lng domain is returned; otherwise
both spans are padded by 10 percent on each side, and elevation bounds
are attached only when some point carried elevation. -/
def calculateBoundingBox (activities : List (Option (List GeoPt))) : BBox :=
  if activities.length = 0 then ⟨0, 0, 0, 0, none, none⟩
  else
    let pts := routePoints activities
    let minLat := pts.foldl (fun m p => min m (qfin p.lat)) ⊤
    let maxLat := pts.foldl (fun m p => max m (qfin p.lat)) ⊥
    let minLng := pts.foldl (fun m p => min m (qfin p.lng)) ⊤
    let maxLng := pts.foldl (fun m p => max m (qfin p.lng)) ⊥
    let minElevation := pts.foldl
      (fun m p => match p.elevation with | some e => min m (qfin e) | none => m) ⊤
    let maxElevation := pts.foldl
      (fun m p => match p.elevation with | some e => max m (qfin e) | none => m) ⊥
    match minLat, maxLat, minLng, maxLng with
    | some (some a), some (some b), some (some c), some (some d) =>
      let latPadding := (b - a) * (1/10)
      let lngPadding := (d - c) * (1/10)
      { minLat := a - latPadding, maxLat := b + latPadding,
        minLng := c - lngPadding, maxLng := d + lngPadding,
        minElevation :=
          match minElevation, maxElevation with
          | some (some e1), some (some _) => some e1
          | _, _ => none,
        maxElevation :=
          match minElevation, maxElevation with
          | some (some _), some (some e2) => some e2
          | _, _ => none }
    | _, _, _, _ => ⟨-90, 90, -180, 180, none, none⟩

/-- The claim's reading of the result for a nonempty point set,
following the spec's words: raw extrema widened by 10 percent of each
span, with elevation bounds when any point has elevation. -/
def specPaddedBox (activities : List (Option (List GeoPt))) : BBox :=
  let pts := routePoints activities
  let minLat := qListMin (pts.map (·.lat))
  let maxLat := qListMax (pts.map (·.lat))
  let minLng := qListMin (pts.map (·.lng))
  let maxLng := qListMax (pts.map (·.lng))
  let elevs := pts.filterMap (·.elevation)
  { minLat := minLat - (maxLat - minLat) * (1/10),
    maxLat := maxLat + (maxLat - minLat) * (1/10),
    minLng := minLng - (maxLng - minLng) * (1/10),
    maxLng := maxLng + (maxLng - minLng) * (1/10),
    minElevation := if elevs = [] then none else some (qListMin elevs),
    maxElevation := if elevs = [] then none else some (qListMax elevs) }

/-!
## Spatial indices (source: spatialIndex.ts)

The external KDBush and RBush libraries are modelled by their
documented contracts: KDBush's range query returns the insertion
indices of all points inside a closed axis-aligned rectangle, and
RBush's search returns all records whose stored rectangle intersects
the query rectangle (closed comparisons).  The trees themselves are
abstracted to the underlying record lists; coordinates are exact
rationals.
-/

/-- A projected 2D point fed to the index builders. -/
structure XY where
  x : ℚ
  y : ℚ
deriving DecidableEq

/-- Source type ProjectedActivitySimple: an optional id and a point
list (the id may be a string or a number in the source; only its
identity matters here). -/
structure ProjectedActivitySimple where
  id : Option String
  points : List XY
deriving DecidableEq

/-- Source interface IndexedPoint. -/
structure IndexedPoint where
  x : ℚ
  y : ℚ
  activityId : Option String
  pointIndex : ℕ
deriving DecidableEq, Inhabited

/-- The running bounds kept by both builders (start at the Infinity
sentinels). -/
structure IndexBounds where
  minX : QInf
  maxX : QInf
  minY : QInf
  maxY : QInf
deriving DecidableEq

/-- Source interface PointsIndex; the KDBush tree is abstracted to the
flat point list it was built from (ids are list positions). -/
structure PointsIndex where
  points : List IndexedPoint
  bounds : IndexBounds
deriving DecidableEq

/-- Source: buildPointsIndex.  Returns none for an empty activity list
or when no activity has any point. -/
def buildPointsIndex (activities : List ProjectedActivitySimple) : Option PointsIndex :=
  if activities.length = 0 then none
  else
    let points := activities.flatMap (fun a =>
      a.points.enum.map (fun ip => ⟨ip.2.x, ip.2.y, a.id, ip.1⟩))
    let bounds : IndexBounds :=
      ⟨points.foldl (fun m p => min m (qfin p.x)) ⊤,
       points.foldl (fun m p => max m (qfin p.x)) ⊥,
       points.foldl (fun m p => min m (qfin p.y)) ⊤,
       points.foldl (fun m p => max m (qfin p.y)) ⊥⟩
    if points.length = 0 then none
    else some ⟨points, bounds⟩

/-- Modelled contract of the external KDBush library: the ids of all
indexed points inside the closed rectangle, in insertion order. -/
def kdbushRange (points : List IndexedPoint) (minX minY maxX maxY : ℚ) : List ℕ :=
  (List.range points.length).filter (fun i =>
    let p := points.getD i default
    decide (minX ≤ p.x ∧ p.x ≤ maxX ∧ minY ≤ p.y ∧ p.y ≤ maxY))

/-- Source: queryPointsWithinRadius.  Rectangular prefilter (x ± r,
y ± r) through the index, then the exact squared-distance check. -/
def queryPointsWithinRadius (pointsIndex : Option PointsIndex) (x y radius : ℚ) :
    List IndexedPoint :=
  match pointsIndex with
  | none => []
  | some pi =>
    if radius ≤ 0 then []
    else
      let r := radius
      let ids := kdbushRange pi.points (x - r) (y - r) (x + r) (y + r)
      if ids.length = 0 then []
      else
        let r2 := r * r
        ids.filterMap (fun id =>
          let p := pi.points.getD id default
          if (p.x - x) * (p.x - x) + (p.y - y) * (p.y - y) ≤ r2 then some p else none)

/-- Source interface SegmentRecord.  The source also precomputes the
segment length with Math.hypot; that field is unused by every modelled
query (it is irrational in general) and is omitted. -/
structure SegmentRecord where
  x0 : ℚ
  y0 : ℚ
  x1 : ℚ
  y1 : ℚ
  activityId : Option String
  pointStartIndex : ℕ
  pointEndIndex : ℕ
  minX : ℚ
  maxX : ℚ
  minY : ℚ
  maxY : ℚ
deriving DecidableEq, Inhabited

/-- Source interface SegmentGridIndex; the RBush tree is abstracted to
its bulk-loaded record list. -/
structure SegmentGridIndex where
  segments : List SegmentRecord
  bounds : IndexBounds
deriving DecidableEq

/-- Source: buildSegmentGridIndex.  One record per consecutive point
pair of each activity, with the precomputed endpoint rectangle.  The
maxEntries argument is RBush's node capacity and does not affect the
modelled query contract. -/
def buildSegmentGridIndex (activities : List ProjectedActivitySimple)
    (_maxEntries : Option ℕ) : Option SegmentGridIndex :=
  if activities.length = 0 then none
  else
    let segments := activities.flatMap (fun a =>
      (a.points.zip a.points.tail).enum.map (fun iseg =>
        let p0 := iseg.2.1
        let p1 := iseg.2.2
        { x0 := p0.x, y0 := p0.y, x1 := p1.x, y1 := p1.y,
          activityId := a.id,
          pointStartIndex := iseg.1, pointEndIndex := iseg.1 + 1,
          minX := min p0.x p1.x, maxX := max p0.x p1.x,
          minY := min p0.y p1.y, maxY := max p0.y p1.y : SegmentRecord }))
    let bounds : IndexBounds :=
      ⟨segments.foldl (fun m s => min m (qfin s.minX)) ⊤,
       segments.foldl (fun m s => max m (qfin s.maxX)) ⊥,
       segments.foldl (fun m s => min m (qfin s.minY)) ⊤,
       segments.foldl (fun m s => max m (qfin s.maxY)) ⊥⟩
    if segments.length = 0 then none
    else some ⟨segments, bounds⟩

/-- Modelled contract of the external RBush library: all records whose
rectangle intersects the query rectangle. -/
def rbushSearch (segments : List SegmentRecord) (minX minY maxX maxY : ℚ) :
    List SegmentRecord :=
  segments.filter (fun s =>
    decide (s.minX ≤ maxX ∧ s.maxX ≥ minX ∧ s.minY ≤ maxY ∧ s.maxY ≥ minY))

/-- Source: querySegmentsNear. -/
def querySegmentsNear (segIndex : Option SegmentGridIndex) (x y radius : ℚ) :
    List SegmentRecord :=
  match segIndex with
  | none => []
  | some si =>
    if radius ≤ 0 then []
    else rbushSearch si.segments (x - radius) (y - radius) (x + radius) (y + radius)

/-- The squared point-to-segment distance computed in the source's
candidate loop: project the point onto the segment, clamp t to [0, 1]
and return the squared distance to the closest point; the JavaScript
guard `segLen2 || 1e-9` replaces a zero squared length by 1e-9. -/
def segDistSqCode (x y : ℚ) (s : SegmentRecord) : ℚ :=
  let segX := s.x1 - s.x0
  let segY := s.y1 - s.y0
  let toPointX := x - s.x0
  let toPointY := y - s.y0
  let segLen2 := if segX * segX + segY * segY = 0 then 1/1000000000
    else segX * segX + segY * segY
  let t := (toPointX * segX + toPointY * segY) / segLen2
  let t := max 0 (min 1 t)
  let cx := s.x0 + t * segX
  let cy := s.y0 + t * segY
  let dx := x - cx
  let dy := y - cy
  dx * dx + dy * dy

/-- Source: isPointNearAnySegment.  Candidates from the rectangle
query, refined by the clamped-projection squared distance. -/
def isPointNearAnySegment (segIndex : Option SegmentGridIndex) (x y radius : ℚ) : Bool :=
  match segIndex with
  | none => false
  | some _si =>
    if radius ≤ 0 then false
    else
      let r2 := radius * radius
      let candidates := querySegmentsNear segIndex x y radius
      candidates.any (fun s => decide (segDistSqCode x y s ≤ r2))

/-- The claim's clamped projection parameter
t = clamp(((q - p0) · (p1 - p0)) / |p1 - p0|², 0, 1).  (Rational
division by zero is zero, so a degenerate segment gets t = 0.) -/
def clampT (x y : ℚ) (s : SegmentRecord) : ℚ :=
  max 0 (min 1 (((x - s.x0) * (s.x1 - s.x0) + (y - s.y0) * (s.y1 - s.y0)) /
    ((s.x1 - s.x0) * (s.x1 - s.x0) + (s.y1 - s.y0) * (s.y1 - s.y0))))

/-- The claim's clamped-projection squared distance from (x, y) to the
segment (p0, p1): squared distance to the closest point
p0 + t · (p1 - p0). -/
def clampedProjDistSq (x y : ℚ) (s : SegmentRecord) : ℚ :=
  (x - (s.x0 + clampT x y s * (s.x1 - s.x0))) ^ 2 +
    (y - (s.y0 + clampT x y s * (s.y1 - s.y0))) ^ 2

/-!
## Adaptive terrain mesh (source: AdaptiveTerrainSurface in DenseTerrainMesh.tsx)

Only the geometry (vertex positions and triangle index buffer) is
modelled; the per-vertex normals and colors computed afterwards do not
feed back into positions or indices.  The Delaunay triangulation comes
from the external Delaunator library and enters as a parameter (its
contract: a flat list of vertex indices, three per triangle, each
smaller than the point count).  The `maxEdgeLength ?? estimate`
default (mean nearest-neighbor spacing × 6, which needs a square
root) is not modelled: `maxEdge` is the resolved value, here rational.
-/

/-- Iteration count of `for (v = lo; v <= hi; v += step)` for a
positive step, with the float loop idealised to v = lo + k·step. -/
def qIterLe (lo hi step : ℚ) : ℕ := (⌊(hi - lo) / step⌋ + 1).toNat

/-- Iteration count of `for (v = lo; v < hi; v += step)` for a
positive step. -/
def qIterLt (lo hi step : ℚ) : ℕ := (⌈(hi - lo) / step⌉).toNat

/-- The source's DensePoint record as consumed by the mesh builder. -/
structure MDensePoint where
  x : ℚ
  y : ℚ
  z : ℚ
  lat : ℚ
  lng : ℚ
deriving DecidableEq, Inhabited

/-- The optional mapBounds prop. -/
structure MapBounds where
  minX : ℚ
  maxX : ℚ
  minY : ℚ
  maxY : ℚ
deriving DecidableEq

/-- The built geometry: the position buffer (one (x, z, y) triple per
vertex, altitude in the middle slot as in the source) and the triangle
index buffer passed to setIndex. -/
structure MeshGeometry where
  positions : List (ℚ × ℚ × ℚ)
  triIdx : List ℤ
deriving DecidableEq

/-- State of the source's nearest-interior-point scan along the left
and right map edges (-1 sentinels become none, the Infinity best
distances start at ⊤). -/
structure RimScan where
  nearestL : Option ℕ
  nearestR : Option ℕ
  bestLd : WithTop ℚ
  bestRd : WithTop ℚ
deriving DecidableEq

/-- Math.hypot(dx, dy) > m without square roots: true iff m < 0 or
m² < dx² + dy². -/
def edgeGt (dx dy m : ℚ) : Bool := decide (m < 0 ∨ m ^ 2 < dx ^ 2 + dy ^ 2)

/-- Source: the geometry part of AdaptiveTerrainSurface.  Fewer than 3
points yield an empty geometry.  Delaunator triangles are filtered by
edge length (dropping any triangle with an edge longer than maxEdge);
with mapBounds present, rim points are appended along the four map
edges at maxEdge/2 spacing and the left/right rim triangles are pushed
with the source's index arithmetic. -/
def adaptiveSurfaceGeometry (tris : List ℕ) (densePoints : List MDensePoint)
    (maxEdge : ℚ) (mapBounds : Option MapBounds) : MeshGeometry :=
  if densePoints.length < 3 then ⟨[], []⟩
  else
    let positions := densePoints.map (fun p => (p.x, p.z, p.y))
    let triTriples := (List.range ((tris.length + 2) / 3)).map (fun t =>
      (tris.getD (3 * t) 0, tris.getD (3 * t + 1) 0, tris.getD (3 * t + 2) 0))
    let triIdx0 : List ℤ := triTriples.flatMap (fun abc =>
      let pa := densePoints.getD abc.1 default
      let pb := densePoints.getD abc.2.1 default
      let pc := densePoints.getD abc.2.2 default
      if edgeGt (pb.x - pa.x) (pb.y - pa.y) maxEdge ||
          edgeGt (pc.x - pb.x) (pc.y - pb.y) maxEdge ||
          edgeGt (pa.x - pc.x) (pa.y - pc.y) maxEdge then []
      else [(abc.1 : ℤ), (abc.2.1 : ℤ), (abc.2.2 : ℤ)])
    match mapBounds with
    | none => ⟨positions, triIdx0⟩
    | some mb =>
      let rimStep := maxEdge / 2
      let rimPoints : List MDensePoint :=
        ((List.range (qIterLe mb.minX mb.maxX rimStep)).flatMap (fun k =>
          let x := mb.minX + (k : ℚ) * rimStep
          [⟨x, mb.minY, 0, 0, 0⟩, ⟨x, mb.maxY, 0, 0, 0⟩])) ++
        ((List.range (qIterLe mb.minY mb.maxY rimStep)).flatMap (fun k =>
          let y := mb.minY + (k : ℚ) * rimStep
          [⟨mb.minX, y, 0, 0, 0⟩, ⟨mb.maxX, y, 0, 0, 0⟩]))
      let baseIndex := densePoints.length
      if rimPoints.length = 0 then ⟨positions, triIdx0⟩
      else
        let newPositions := positions ++ rimPoints.map (fun p => (p.x, p.z, p.y))
        let rimTris : List ℤ := (List.range (qIterLt mb.minY mb.maxY rimStep)).flatMap (fun k =>
          let y := mb.minY + (k : ℚ) * rimStep
          let i0 : ℤ := (baseIndex : ℤ) +
            ⌊(y - mb.minY) / rimStep * 2 +
              (2 * (⌊(mb.maxX - mb.minX) / rimStep⌋ : ℚ) + 2) * 1⌋
          let i1 : ℤ := i0 + 2
          let scan := (List.range densePoints.length).foldl (fun st vi =>
            let p := densePoints.getD vi default
            if |p.y - y| > rimStep then st
            else
              let st1 := if p.x < mb.minX + rimStep ∧
                  ((mb.minX - p.x : ℚ) : WithTop ℚ) < st.bestLd then
                { st with nearestL := some vi, bestLd := ((mb.minX - p.x : ℚ) : WithTop ℚ) }
                else st
              if p.x > mb.maxX - rimStep ∧
                  ((p.x - mb.maxX : ℚ) : WithTop ℚ) < st1.bestRd then
                { st1 with nearestR := some vi, bestRd := ((p.x - mb.maxX : ℚ) : WithTop ℚ) }
                else st1)
            (⟨none, none, ⊤, ⊤⟩ : RimScan)
          (match scan.nearestL with | some nL => [(nL : ℤ), i0, i0 + 2] | none => []) ++
          (match scan.nearestR with | some nR => [(nR : ℤ), i1, i1 + 2] | none => []))
        ⟨newPositions, triIdx0 ++ rimTris⟩

/-!
## Densification engine (source: densifyUtils)

Coordinates and altitudes are exact rationals; the step (Math.sqrt)
and the Gaussian weights (Math.exp) are genuine reals, so the dense
grid and output altitudes live in ℝ and these definitions are
noncomputable.  The KDBush index over the gathered samples is again
modelled by its contract (ids of the samples inside a closed
rectangle, in insertion order).
-/

section Densification

open scoped Classical

/-- Source interface ProjectedPoint (StravaActivityMapUtils).  The
densification strategies test `p.altitude === undefined`; altitude is
therefore optional here. -/
structure PPoint where
  x : ℚ
  y : ℚ
  z : ℚ
  lat : ℚ
  lng : ℚ
  altitude : Option ℚ
deriving DecidableEq

/-- Source interface ProjectedActivity. -/
structure PActivity where
  id : String
  name : String
  points : List PPoint
  color : String
deriving DecidableEq

/-- A gathered sample {x, y, z} (z = altitude). -/
structure Sample where
  x : ℚ
  y : ℚ
  z : ℚ
deriving DecidableEq, Inhabited

/-- A produced dense point.  Grid coordinates and smoothed altitude
are reals (the adaptive step involves a square root and MLS weights an
exponential); lat/lng are the source's placeholder zeros. -/
structure DensePointR where
  x : ℝ
  y : ℝ
  z : ℝ
  lat : ℚ
  lng : ℚ

/-- The bounds record of a DensificationResult; fields start at the
Infinity sentinels and stay there when no sample updates them. -/
structure DenseBounds where
  minX : QInf
  maxX : QInf
  minY : QInf
  maxY : QInf
  minZ : QInf
  maxZ : QInf
deriving DecidableEq

/-- Source interface DensificationResult. -/
structure DensificationResult where
  densePoints : List DensePointR
  bounds : DenseBounds

/-- The altitude-bearing samples gathered from the input activities,
in traversal order (points without altitude are skipped). -/
def altSamples (activities : List PActivity) : List Sample :=
  activities.flatMap (fun a => a.points.filterMap (fun p =>
    p.altitude.map (fun alt => ⟨p.x, p.y, alt⟩)))

/-- The running extrema that mlsDensification and
delaunayDensification update in the same pass that gathers the
altitude-bearing samples; folding over altSamples is that loop. -/
def altBounds (activities : List PActivity) : DenseBounds :=
  let s := altSamples activities
  ⟨s.foldl (fun m p => min m (qfin p.x)) ⊤,
   s.foldl (fun m p => max m (qfin p.x)) ⊥,
   s.foldl (fun m p => min m (qfin p.y)) ⊤,
   s.foldl (fun m p => max m (qfin p.y)) ⊥,
   s.foldl (fun m p => min m (qfin p.z)) ⊤,
   s.foldl (fun m p => max m (qfin p.z)) ⊥⟩

/-- All points of all activities (interpolateDensePoints computes its
x/y bounds over every point, altitude or not). -/
def allPoints (activities : List PActivity) : List PPoint :=
  activities.flatMap (fun a => a.points)

/-- The running extrema of interpolateDensePoints' first pass: x/y
over every point, z only over points carrying altitude. -/
def allBounds (activities : List PActivity) : DenseBounds :=
  let pts := allPoints activities
  ⟨pts.foldl (fun m p => min m (qfin p.x)) ⊤,
   pts.foldl (fun m p => max m (qfin p.x)) ⊥,
   pts.foldl (fun m p => min m (qfin p.y)) ⊤,
   pts.foldl (fun m p => max m (qfin p.y)) ⊥,
   pts.foldl (fun m p => match p.altitude with | some alt => min m (qfin alt) | none => m) ⊤,
   pts.foldl (fun m p => match p.altitude with | some alt => max m (qfin alt) | none => m) ⊥⟩

/-- Source: computeAdaptiveStep.  The step is the larger of the
density-derived step (density clamped below at 1) and the step that
caps total samples at maxSamples for the given area (area clamped
below at 1). -/
noncomputable def computeAdaptiveStep (requestedDensity width height : ℚ)
    (maxSamples : ℕ := 200000) : ℝ :=
  let densityStep : ℝ := 1 / max 1 (requestedDensity : ℝ)
  let area : ℝ := max 1 ((width : ℝ) * (height : ℝ))
  let stepFromCap : ℝ := Real.sqrt (area / max 1 (maxSamples : ℝ))
  max densityStep stepFromCap

/-- Iteration count of `for (v = lo; v <= hi; v += step)` over the
reals, for a positive step and hi ≥ lo: ⌊(hi - lo)/step⌋ + 1. -/
noncomputable def gridCount (span step : ℝ) : ℕ := (⌊span / step⌋ + 1).toNat

/-- Modelled contract of the KDBush index over the gathered samples
(createIndex): ids of the samples inside the closed rectangle. -/
noncomputable def sampleRange (samples : List Sample) (minX minY maxX maxY : ℝ) : List ℕ :=
  (List.range samples.length).filter (fun i =>
    let s := samples.getD i default
    decide (minX ≤ (s.x : ℝ) ∧ (s.x : ℝ) ≤ maxX ∧ minY ≤ (s.y : ℝ) ∧ (s.y : ℝ) ≤ maxY))

/-- Squared distance from a sample to a grid point. -/
noncomputable def sampleD2 (s : Sample) (gx gy : ℝ) : ℝ :=
  ((s.x : ℝ) - gx) ^ 2 + ((s.y : ℝ) - gy) ^ 2

/-- The source's Gaussian kernel weight exp(-d² / max(1e-6, 2σ²)). -/
noncomputable def gaussWeight (twoSigma2 d2 : ℝ) : ℝ :=
  Real.exp (-d2 / max (1 / 1000000) twoSigma2)

/-- One grid cell of mlsDensification's double loop: neighborhood via
the rectangle query, samples beyond the search radius skipped, then
the Gaussian-weighted average altitude; the cell is skipped when no
candidate exists or the total weight is zero. -/
noncomputable def mlsCell (samples : List Sample) (searchRadius twoSigma2 gx gy : ℝ) :
    Option DensePointR :=
  let ids := sampleRange samples (gx - searchRadius) (gy - searchRadius)
    (gx + searchRadius) (gy + searchRadius)
  if ids = [] then none
  else
    let kept := ids.filter (fun id =>
      decide (sampleD2 (samples.getD id default) gx gy ≤ searchRadius * searchRadius))
    let wsum : ℝ := (kept.map (fun id =>
      gaussWeight twoSigma2 (sampleD2 (samples.getD id default) gx gy))).sum
    let zsum : ℝ := (kept.map (fun id =>
      gaussWeight twoSigma2 (sampleD2 (samples.getD id default) gx gy) *
        ((samples.getD id default).z : ℝ))).sum
    if wsum = 0 then none
    else some ⟨gx, gy, zsum / wsum, 0, 0⟩

/-- Source: mlsDensification. -/
noncomputable def mlsDensification (projectedActivities : List PActivity)
    (density : ℚ := 10) : DensificationResult :=
  let samples := altSamples projectedActivities
  let bounds := altBounds projectedActivities
  if samples = [] then ⟨[], bounds⟩
  else
    let minX := qListMin (samples.map (fun s => s.x))
    let maxX := qListMax (samples.map (fun s => s.x))
    let minY := qListMin (samples.map (fun s => s.y))
    let maxY := qListMax (samples.map (fun s => s.y))
    let width := maxX - minX
    let height := maxY - minY
    let step : ℝ := computeAdaptiveStep density width height
    let searchRadius : ℝ := max 3 (step * 2)
    let twoSigma2 : ℝ := (searchRadius * (6/10)) ^ 2 * 2
    let densePoints := (List.range (gridCount ((width : ℚ) : ℝ) step)).flatMap (fun i =>
      (List.range (gridCount ((height : ℚ) : ℝ) step)).filterMap (fun j =>
        mlsCell samples searchRadius twoSigma2
          ((minX : ℝ) + (i : ℝ) * step) ((minY : ℝ) + (j : ℝ) * step)))
    ⟨densePoints, bounds⟩

/-- Source: interpolateDensePoints (the nearest-neighbor fallback).
Bounds over all points are padded by 10 on x and y before the
no-altitude early return, exactly as in the source. -/
noncomputable def interpolateDensePoints (projectedActivities : List PActivity)
    (density : ℚ := 10) : DensificationResult :=
  let b0 := allBounds projectedActivities
  let padding : ℚ := 10
  let bounds : DenseBounds := ⟨qsubFin b0.minX padding, qaddFin b0.maxX padding,
    qsubFin b0.minY padding, qaddFin b0.maxY padding, b0.minZ, b0.maxZ⟩
  let samples := altSamples projectedActivities
  if samples = [] then ⟨[], bounds⟩
  else
    let pts := allPoints projectedActivities
    let minX := qListMin (pts.map (fun p => p.x)) - padding
    let maxX := qListMax (pts.map (fun p => p.x)) + padding
    let minY := qListMin (pts.map (fun p => p.y)) - padding
    let maxY := qListMax (pts.map (fun p => p.y)) + padding
    let width := maxX - minX
    let height := maxY - minY
    let stepSize := computeAdaptiveStep density width height
    let searchRadius : ℝ := max 3 (stepSize * 2)
    let maxRadius2 := searchRadius * searchRadius
    let densePoints := (List.range (gridCount ((width : ℚ) : ℝ) stepSize)).flatMap (fun i =>
      (List.range (gridCount ((height : ℚ) : ℝ) stepSize)).filterMap (fun j =>
        let x : ℝ := (minX : ℝ) + (i : ℝ) * stepSize
        let y : ℝ := (minY : ℝ) + (j : ℝ) * stepSize
        let ids := sampleRange samples (x - searchRadius) (y - searchRadius)
          (x + searchRadius) (y + searchRadius)
        if ids = [] then none
        else
          let best := ids.foldl (fun (acc : WithTop ℝ × ℚ) id =>
            let s := samples.getD id default
            let d2 := sampleD2 s x y
            if (d2 : WithTop ℝ) < acc.1 ∧ d2 ≤ maxRadius2 then ((d2 : WithTop ℝ), s.z)
            else acc) (⊤, 0)
          if best.1 = ⊤ then none
          else some ⟨x, y, (best.2 : ℝ), 0, 0⟩))
    ⟨densePoints, bounds⟩

/-- The external Delaunator library, abstracted to its interface: a
triangulation of the input points as a flat list of index triples.
Modelled as a fan over the input order; no claim depends on which
triangulation the library returns. -/
def delaunatorTriangles (coords : List (ℚ × ℚ)) : List ℕ :=
  if coords.length < 3 then []
  else (List.range (coords.length - 2)).flatMap (fun i => [0, i + 1, i + 2])

/-- List of the integers lo..hi (the `for (i = i0; i <= i1; i++)`
loop). -/
def intRange (lo hi : ℤ) : List ℤ := (List.range (hi + 1 - lo).toNat).map (fun k => lo + k)

/-- Source: the barycentric helper interpolateZ inside
delaunayDensification.  Returns none for a (near-)degenerate triangle
or a point outside it (tolerance -1e-6). -/
noncomputable def interpolateZ (px py : ℝ) (a b c : Sample) : Option ℝ :=
  let v0x := b.x - a.x
  let v0y := b.y - a.y
  let v1x := c.x - a.x
  let v1y := c.y - a.y
  let v2x := px - (a.x : ℝ)
  let v2y := py - (a.y : ℝ)
  let den := v0x * v1y - v1x * v0y
  if |den| < 1 / 10 ^ 12 then none
  else
    let invDen := 1 / (den : ℝ)
    let u := (v2x * (v1y : ℝ) - (v1x : ℝ) * v2y) * invDen
    let v := ((v0x : ℝ) * v2y - v2x * (v0y : ℝ)) * invDen
    let w := 1 - u - v
    if u < -(1 / 10 ^ 6) ∨ v < -(1 / 10 ^ 6) ∨ w < -(1 / 10 ^ 6) then none
    else some (u * (b.z : ℝ) + v * (c.z : ℝ) + w * (a.z : ℝ))

/-- Source: delaunayDensification.  Each triangle's bounding box is
rasterised on the quantised grid; cells are deduplicated across
triangles by the quantised (i, j) key set, in traversal order. -/
noncomputable def delaunayDensification (projectedActivities : List PActivity)
    (density : ℚ := 10) : DensificationResult :=
  let pts := altSamples projectedActivities
  let bounds := altBounds projectedActivities
  if pts.length < 3 then ⟨[], bounds⟩
  else
    let minX := qListMin (pts.map (fun s => s.x))
    let maxX := qListMax (pts.map (fun s => s.x))
    let minY := qListMin (pts.map (fun s => s.y))
    let maxY := qListMax (pts.map (fun s => s.y))
    let width := maxX - minX
    let height := maxY - minY
    let step := computeAdaptiveStep density width height
    let invStep : ℝ := 1 / max (1 / 10 ^ 9) step
    let coords := pts.map (fun p => (p.x, p.y))
    let triangles := delaunatorTriangles coords
    let triTriples := (List.range ((triangles.length + 2) / 3)).map (fun t =>
      (triangles.getD (3 * t) 0, triangles.getD (3 * t + 1) 0, triangles.getD (3 * t + 2) 0))
    let cells := triTriples.flatMap (fun tri =>
      let A := pts.getD tri.1 default
      let B := pts.getD tri.2.1 default
      let C := pts.getD tri.2.2 default
      let tMinX := min (min A.x B.x) C.x
      let tMaxX := max (max A.x B.x) C.x
      let tMinY := min (min A.y B.y) C.y
      let tMaxY := max (max A.y B.y) C.y
      let i0 := ⌊((tMinX - minX : ℚ) : ℝ) * invStep⌋
      let i1 := ⌈((tMaxX - minX : ℚ) : ℝ) * invStep⌉
      let j0 := ⌊((tMinY - minY : ℚ) : ℝ) * invStep⌋
      let j1 := ⌈((tMaxY - minY : ℚ) : ℝ) * invStep⌉
      (intRange i0 i1).flatMap (fun (i : ℤ) =>
        let x : ℝ := (minX : ℝ) + (i : ℝ) * step
        (intRange j0 j1).filterMap (fun (j : ℤ) =>
          let y : ℝ := (minY : ℝ) + (j : ℝ) * step
          (interpolateZ x y A B C).map (fun z => ((i, j), (⟨x, y, z, 0, 0⟩ : DensePointR))))))
    let densePoints := (cells.foldl (fun (acc : List (ℤ × ℤ) × List DensePointR) cell =>
      if cell.1 ∈ acc.1 then acc
      else (acc.1 ++ [cell.1], acc.2 ++ [cell.2])) ([], [])).2
    ⟨densePoints, bounds⟩

/-- The keys of the densifyMethods table. -/
inductive DensifyMethodKey where
  | mls
  | interpolation
  | delaunay
deriving DecidableEq

/-- The method option: a key or "auto". -/
inductive MethodOpt where
  | auto
  | key (k : DensifyMethodKey)
deriving DecidableEq

/-- One entry of the densifyMethods table.  A run may throw
(Except.error models a JavaScript exception); the concrete entries
below are total and always return ok. -/
structure DensifyMethodEntry where
  name : String
  description : String
  run : List PActivity → ℚ → Except Unit DensificationResult

/-- Source: the densifyMethods table. -/
noncomputable def densifyMethods : DensifyMethodKey → DensifyMethodEntry
  | .mls => ⟨"MLS (Gaussian)", "MLS-style smoothing on a grid with spatial index",
      fun activities density => .ok (mlsDensification activities density)⟩
  | .interpolation => ⟨"Interpolation", "Simple grid-based interpolation using nearest neighbor",
      fun activities density => .ok (interpolateDensePoints activities density)⟩
  | .delaunay => ⟨"Delaunay", "Delaunay triangulation with barycentric interpolation",
      fun activities density => .ok (delaunayDensification activities density)⟩

/-- The auto method resolves to mls; a concrete key stands. -/
def resolveMethod : MethodOpt → DensifyMethodKey
  | .auto => .mls
  | .key k => k

/-- Source: the body of densify, parameterized over the method table
(the source's dynamic dispatch through densifyMethods).  The try/catch
becomes the match: a thrown run falls back to the table's
interpolation entry, whose own outcome is returned as is. -/
noncomputable def densifyWith (methods : DensifyMethodKey → DensifyMethodEntry)
    (projectedActivities : List PActivity) (method : MethodOpt := .auto)
    (density : ℚ := 10) : Except Unit DensificationResult :=
  let selectedMethod := resolveMethod method
  let impl := methods selectedMethod
  match impl.run projectedActivities density with
  | .ok result => .ok result
  | .error _ => (methods DensifyMethodKey.interpolation).run projectedActivities density

/-- Source: densify (debug logging omitted). -/
noncomputable def densify (projectedActivities : List PActivity)
    (method : MethodOpt := .auto) (density : ℚ := 10) : Except Unit DensificationResult :=
  densifyWith densifyMethods projectedActivities method density

/-- A table that behaves like densifyMethods except that the mls entry
always throws; used to exercise densify's catch path. -/
noncomputable def faultyDensifyMethods : DensifyMethodKey → DensifyMethodEntry :=
  fun k =>
    if k = DensifyMethodKey.mls then
      ⟨"MLS (Gaussian)", "always throwing", fun _ _ => .error ()⟩
    else densifyMethods k

/-- The spec's reading of the adaptive step: the larger of 1/D and
sqrt((W·H)/200000), with no clamping of the density or the area. -/
noncomputable def specAdaptiveStep (requestedDensity width height : ℚ) : ℝ :=
  max (1 / (requestedDensity : ℝ)) (Real.sqrt (((width : ℝ) * (height : ℝ)) / 200000))

end Densification

/-!
## Theorems

All claim theorems, their witnesses and the supporting lemmas.
-/

theorem foldl_min_le_init (l : List ℚ) (a : ℚ) : l.foldl min a ≤ a := by
  induction l generalizing a with
  | nil => simp
  | cons b t ih => exact le_trans (ih (min a b)) (min_le_left _ _)

theorem foldl_min_le_mem {q : ℚ} : ∀ (l : List ℚ) (a : ℚ), q ∈ l → l.foldl min a ≤ q := by
  intro l
  induction l with
  | nil => intro a h; simp at h
  | cons b t ih =>
    intro a h
    rcases List.mem_cons.mp h with rfl | h'
    · exact le_trans (foldl_min_le_init t (min a q)) (min_le_right _ _)
    · exact ih (min a b) h'

theorem init_le_foldl_max (l : List ℚ) (a : ℚ) : a ≤ l.foldl max a := by
  induction l generalizing a with
  | nil => simp
  | cons b t ih => exact le_trans (le_max_left a b) (ih (max a b))

theorem mem_le_foldl_max {q : ℚ} : ∀ (l : List ℚ) (a : ℚ), q ∈ l → q ≤ l.foldl max a := by
  intro l
  induction l with
  | nil => intro a h; simp at h
  | cons b t ih =>
    intro a h
    rcases List.mem_cons.mp h with rfl | h'
    · exact le_trans (le_max_right a q) (init_le_foldl_max t (max a q))
    · exact ih (max a b) h'

theorem qListMin_le {l : List ℚ} {q : ℚ} (h : q ∈ l) : qListMin l ≤ q :=
  foldl_min_le_mem l (l.headD 0) h

theorem le_qListMax {l : List ℚ} {q : ℚ} (h : q ∈ l) : q ≤ qListMax l :=
  mem_le_foldl_max l (l.headD 0) h

theorem qListMin_le_qListMax {l : List ℚ} (h : l ≠ []) : qListMin l ≤ qListMax l := by
  have hm : l.headD 0 ∈ l := by
    cases l with
    | nil => exact absurd rfl h
    | cons a t => simp
  exact le_trans (qListMin_le hm) (le_qListMax hm)

/-- C5: encoding the single point (38.5, -120.2), i.e. (3850000,
-12020000) in 1e-5 units (the canonical example string of the
polyline format), and decoding it with the repository's decoder does
NOT reproduce the original pair: because the decoder's do-while tests
the accumulated result instead of the chunk's continuation bit, every
coordinate consumes exactly one 5-bit group and the ten-character
string decodes to five garbage points instead of one. -/
theorem decodePolyline_drops_continuation_groups :
    decodePolyline (encodePolyline [(3850000, -12020000)]) =
      [(0, Rat.divInt (-9) 100000), (Rat.divInt (-16) 100000, Rat.divInt (-4) 100000),
       (Rat.divInt (-20) 100000, Rat.divInt (-20) 100000),
       (Rat.divInt (-29) 100000, Rat.divInt (-10) 100000),
       (Rat.divInt (-44) 100000, Rat.divInt 1 100000)] ∧
    (decodePolyline (encodePolyline [(3850000, -12020000)])).length ≠ 1 := by
  constructor
  · decide
  · decide

theorem qfin_min (a b : ℚ) : min (qfin a) (qfin b) = qfin (min a b) := by
  unfold qfin
  rw [← WithBot.coe_min, ← WithTop.coe_min]

theorem qfin_max (a b : ℚ) : max (qfin a) (qfin b) = qfin (max a b) := by
  unfold qfin
  rw [← WithBot.coe_max, ← WithTop.coe_max]

theorem qinf_foldl_min_from {α : Type} (f : α → ℚ) :
    ∀ (l : List α) (a : ℚ),
      l.foldl (fun m p => min m (qfin (f p))) (qfin a) = qfin ((l.map f).foldl min a) := by
  intro l
  induction l with
  | nil => intro a; rfl
  | cons b t ih =>
    intro a
    simp only [List.foldl_cons, List.map_cons, qfin_min]
    exact ih (min a (f b))

theorem qinf_foldl_max_from {α : Type} (f : α → ℚ) :
    ∀ (l : List α) (a : ℚ),
      l.foldl (fun m p => max m (qfin (f p))) (qfin a) = qfin ((l.map f).foldl max a) := by
  intro l
  induction l with
  | nil => intro a; rfl
  | cons b t ih =>
    intro a
    simp only [List.foldl_cons, List.map_cons, qfin_max]
    exact ih (max a (f b))

theorem qinf_foldl_min_top {α : Type} (f : α → ℚ) (l : List α) (h : l ≠ []) :
    l.foldl (fun m p => min m (qfin (f p))) ⊤ = qfin (qListMin (l.map f)) := by
  cases l with
  | nil => exact absurd rfl h
  | cons b t =>
    simp only [List.foldl_cons]
    rw [min_eq_right le_top, qinf_foldl_min_from]
    unfold qListMin
    simp [min_self]

theorem qinf_foldl_max_bot {α : Type} (f : α → ℚ) (l : List α) (h : l ≠ []) :
    l.foldl (fun m p => max m (qfin (f p))) ⊥ = qfin (qListMax (l.map f)) := by
  cases l with
  | nil => exact absurd rfl h
  | cons b t =>
    simp only [List.foldl_cons]
    rw [max_eq_right bot_le, qinf_foldl_max_from]
    unfold qListMax
    simp [max_self]

theorem qfin_eq_some_some (q : ℚ) : qfin q = some (some q) := rfl

theorem qinf_foldl_elev_min :
    ∀ (l : List GeoPt) (a : QInf),
      l.foldl (fun m p => match p.elevation with | some e => min m (qfin e) | none => m) a
        = (l.filterMap (fun p => p.elevation)).foldl (fun m e => min m (qfin e)) a := by
  intro l
  induction l with
  | nil => intro a; rfl
  | cons b t ih =>
    intro a
    simp only [List.foldl_cons, List.filterMap_cons]
    cases hg : b.elevation with
    | none => simpa [hg] using ih a
    | some e => simpa [hg] using ih (min a (qfin e))

theorem qinf_foldl_elev_max :
    ∀ (l : List GeoPt) (a : QInf),
      l.foldl (fun m p => match p.elevation with | some e => max m (qfin e) | none => m) a
        = (l.filterMap (fun p => p.elevation)).foldl (fun m e => max m (qfin e)) a := by
  intro l
  induction l with
  | nil => intro a; rfl
  | cons b t ih =>
    intro a
    simp only [List.foldl_cons, List.filterMap_cons]
    cases hg : b.elevation with
    | none => simpa [hg] using ih a
    | some e => simpa [hg] using ih (max a (qfin e))

theorem qinf_foldl_id_min_top (l : List ℚ) (h : l ≠ []) :
    l.foldl (fun m e => min m (qfin e)) ⊤ = qfin (qListMin l) := by
  have := qinf_foldl_min_top (fun e => e) l h
  simpa using this

theorem qinf_foldl_id_max_bot (l : List ℚ) (h : l ≠ []) :
    l.foldl (fun m e => max m (qfin e)) ⊥ = qfin (qListMax l) := by
  have := qinf_foldl_max_bot (fun e => e) l h
  simpa using this

/-- calculateBoundingBox on a nonempty decoded point set equals the
spec's padded-extrema box. -/
theorem calculateBoundingBox_eq_spec (acts : List (Option (List GeoPt)))
    (h : routePoints acts ≠ []) : calculateBoundingBox acts = specPaddedBox acts := by
  have hne : acts ≠ [] := by rintro rfl; exact h rfl
  have hlen : ¬ acts.length = 0 := by simpa [List.length_eq_zero] using hne
  simp only [calculateBoundingBox, specPaddedBox, if_neg hlen]
  rw [qinf_foldl_min_top (fun p => p.lat) _ h, qinf_foldl_max_bot (fun p => p.lat) _ h,
      qinf_foldl_min_top (fun p => p.lng) _ h, qinf_foldl_max_bot (fun p => p.lng) _ h,
      qinf_foldl_elev_min _ _, qinf_foldl_elev_max _ _]
  by_cases he : (routePoints acts).filterMap (fun p => p.elevation) = []
  · rw [he]
    simp [qfin_eq_some_some, he]
  · rw [qinf_foldl_id_min_top _ he, qinf_foldl_id_max_bot _ he]
    simp [qfin_eq_some_some, he]

/-- C7 counterexample: on the empty activity list the source returns
the all-zero box, not the full valid lat/lng domain the claim
requires. -/
theorem calculateBoundingBox_empty_not_full_domain :
    calculateBoundingBox [] ≠ ⟨-90, 90, -180, 180, none, none⟩ := by decide

/-- C7 (amended): the empty activity list yields the all-zero box; a
nonempty activity list with no valid decoded points yields the full
valid domain; and when any decoded point exists the box is the raw
extrema widened by 10 percent of each span, with minLat ≤ maxLat and
minLng ≤ maxLng. -/
theorem calculateBoundingBox_amended (acts : List (Option (List GeoPt))) :
    (acts = [] → calculateBoundingBox acts = ⟨0, 0, 0, 0, none, none⟩) ∧
    (acts ≠ [] → routePoints acts = [] →
      calculateBoundingBox acts = ⟨-90, 90, -180, 180, none, none⟩) ∧
    (routePoints acts ≠ [] →
      (calculateBoundingBox acts).minLat ≤ (calculateBoundingBox acts).maxLat ∧
      (calculateBoundingBox acts).minLng ≤ (calculateBoundingBox acts).maxLng ∧
      calculateBoundingBox acts = specPaddedBox acts) := by
  refine ⟨?_, ?_, ?_⟩
  · rintro rfl; rfl
  · intro h1 h2
    have hlen : ¬ acts.length = 0 := by simpa [List.length_eq_zero] using h1
    simp only [calculateBoundingBox, if_neg hlen, h2]
    rfl
  · intro h
    have heq := calculateBoundingBox_eq_spec acts h
    rw [heq]
    have hlat : qListMin ((routePoints acts).map (fun p => p.lat)) ≤
        qListMax ((routePoints acts).map (fun p => p.lat)) :=
      qListMin_le_qListMax (by simpa using h)
    have hlng : qListMin ((routePoints acts).map (fun p => p.lng)) ≤
        qListMax ((routePoints acts).map (fun p => p.lng)) :=
      qListMin_le_qListMax (by simpa using h)
    refine ⟨?_, ?_, rfl⟩
    · show qListMin _ - (qListMax _ - qListMin _) * (1/10) ≤
        qListMax _ + (qListMax _ - qListMin _) * (1/10)
      linarith
    · show qListMin _ - (qListMax _ - qListMin _) * (1/10) ≤
        qListMax _ + (qListMax _ - qListMin _) * (1/10)
      linarith

/-- Witness for C7's amended theorem at a concrete one-point activity
list. -/
theorem calculateBoundingBox_amended_witness :
    routePoints [some [⟨1, 2, none⟩]] ≠ [] ∧
    ((calculateBoundingBox [some [⟨1, 2, none⟩]]).minLat ≤
        (calculateBoundingBox [some [⟨1, 2, none⟩]]).maxLat ∧
      (calculateBoundingBox [some [⟨1, 2, none⟩]]).minLng ≤
        (calculateBoundingBox [some [⟨1, 2, none⟩]]).maxLng ∧
      calculateBoundingBox [some [⟨1, 2, none⟩]] = specPaddedBox [some [⟨1, 2, none⟩]]) :=
  ⟨by decide, (calculateBoundingBox_amended [some [⟨1, 2, none⟩]]).2.2 (by decide)⟩

/-- C3: queryPointsWithinRadius returns exactly the indexed points
within Euclidean distance r of the query center: the rectangular
prefilter misses no point within r, and the squared-distance check
admits no point beyond r. -/
theorem queryPointsWithinRadius_exact
    (activities : List ProjectedActivitySimple) (x y r : ℚ) (hr : 0 < r)
    (idx : PointsIndex) (_hb : buildPointsIndex activities = some idx) (p : IndexedPoint) :
    p ∈ queryPointsWithinRadius (some idx) x y r ↔
      p ∈ idx.points ∧
        Real.sqrt (((p.x : ℝ) - (x : ℝ)) ^ 2 + ((p.y : ℝ) - (y : ℝ)) ^ 2) ≤ (r : ℝ) := by
  have hr' : ¬ r ≤ 0 := not_le.mpr hr
  have hconv : (Real.sqrt (((p.x : ℝ) - (x : ℝ)) ^ 2 + ((p.y : ℝ) - (y : ℝ)) ^ 2) ≤ (r : ℝ)) ↔
      (p.x - x) * (p.x - x) + (p.y - y) * (p.y - y) ≤ r * r := by
    rw [Real.sqrt_le_left (by exact_mod_cast le_of_lt hr),
      show ((r : ℝ)) ^ 2 = ((r * r : ℚ) : ℝ) by push_cast; ring,
      show ((p.x : ℝ) - (x : ℝ)) ^ 2 + ((p.y : ℝ) - (y : ℝ)) ^ 2
          = (((p.x - x) * (p.x - x) + (p.y - y) * (p.y - y) : ℚ) : ℝ) by push_cast; ring,
      Rat.cast_le]
  rw [hconv]
  simp only [queryPointsWithinRadius, if_neg hr']
  constructor
  · intro hm
    by_cases hids : (kdbushRange idx.points (x - r) (y - r) (x + r) (y + r)).length = 0
    · rw [if_pos hids] at hm; simp at hm
    · rw [if_neg hids, List.mem_filterMap] at hm
      obtain ⟨id, hid, hsome⟩ := hm
      have hidlt : id < idx.points.length :=
        List.mem_range.mp (List.mem_filter.mp hid).1
      split_ifs at hsome with hcond
      · obtain rfl : idx.points.getD id default = p := Option.some_injective _ hsome
        refine ⟨?_, hcond⟩
        rw [List.getD_eq_getElem _ _ hidlt]
        exact List.getElem_mem hidlt
  · rintro ⟨hmem, hdist⟩
    obtain ⟨i, hilt, hi⟩ := List.mem_iff_getElem.mp hmem
    have hx1 : x - r ≤ p.x := by nlinarith [mul_self_nonneg (p.y - y), mul_self_nonneg (p.x - x + r)]
    have hx2 : p.x ≤ x + r := by nlinarith [mul_self_nonneg (p.y - y), mul_self_nonneg (p.x - x - r)]
    have hy1 : y - r ≤ p.y := by nlinarith [mul_self_nonneg (p.x - x), mul_self_nonneg (p.y - y + r)]
    have hy2 : p.y ≤ y + r := by nlinarith [mul_self_nonneg (p.x - x), mul_self_nonneg (p.y - y - r)]
    have hid : i ∈ kdbushRange idx.points (x - r) (y - r) (x + r) (y + r) := by
      unfold kdbushRange
      rw [List.mem_filter]
      refine ⟨List.mem_range.mpr hilt, ?_⟩
      rw [List.getD_eq_getElem _ _ hilt, hi]
      exact decide_eq_true ⟨hx1, hx2, hy1, hy2⟩
    have hlen : ¬ (kdbushRange idx.points (x - r) (y - r) (x + r) (y + r)).length = 0 := by
      intro h0
      rw [List.length_eq_zero] at h0
      rw [h0] at hid
      simp at hid
    rw [if_neg hlen, List.mem_filterMap]
    exact ⟨i, hid, by rw [List.getD_eq_getElem _ _ hilt, hi, if_pos hdist]⟩

/-- Witness for C3 at a concrete two-point activity. -/
theorem queryPointsWithinRadius_exact_witness :
    (0 : ℚ) < 5 ∧
    buildPointsIndex [⟨some "a", [⟨0, 0⟩, ⟨3, 4⟩]⟩] =
      some ⟨[⟨0, 0, some "a", 0⟩, ⟨3, 4, some "a", 1⟩], ⟨qfin 0, qfin 3, qfin 0, qfin 4⟩⟩ ∧
    (⟨3, 4, some "a", 1⟩ ∈ queryPointsWithinRadius
        (some ⟨[⟨0, 0, some "a", 0⟩, ⟨3, 4, some "a", 1⟩], ⟨qfin 0, qfin 3, qfin 0, qfin 4⟩⟩) 0 0 5 ↔
      (⟨3, 4, some "a", 1⟩ : IndexedPoint) ∈
          ([⟨0, 0, some "a", 0⟩, ⟨3, 4, some "a", 1⟩] : List IndexedPoint) ∧
        Real.sqrt ((((3 : ℚ) : ℝ) - ((0 : ℚ) : ℝ)) ^ 2 + (((4 : ℚ) : ℝ) - ((0 : ℚ) : ℝ)) ^ 2) ≤
          ((5 : ℚ) : ℝ)) :=
  ⟨by decide, by decide,
    queryPointsWithinRadius_exact [⟨some "a", [⟨0, 0⟩, ⟨3, 4⟩]⟩] 0 0 5 (by decide)
      ⟨[⟨0, 0, some "a", 0⟩, ⟨3, 4, some "a", 1⟩], ⟨qfin 0, qfin 3, qfin 0, qfin 4⟩⟩ (by decide)
      ⟨3, 4, some "a", 1⟩⟩

/-- The source's guarded computation agrees with the claim's clamped
projection formula: for a degenerate segment both sides give the
distance to p0 (the numerator is 0, so the 1e-9 guard and the
rational 0/0 = 0 convention produce the same t = 0). -/
theorem segDistSqCode_eq_clamped (x y : ℚ) (s : SegmentRecord) :
    segDistSqCode x y s = clampedProjDistSq x y s := by
  unfold segDistSqCode clampedProjDistSq clampT
  by_cases h0 : (s.x1 - s.x0) * (s.x1 - s.x0) + (s.y1 - s.y0) * (s.y1 - s.y0) = 0
  · have hvx : s.x1 - s.x0 = 0 := by
      nlinarith [mul_self_nonneg (s.x1 - s.x0), mul_self_nonneg (s.y1 - s.y0)]
    have hvy : s.y1 - s.y0 = 0 := by
      nlinarith [mul_self_nonneg (s.x1 - s.x0), mul_self_nonneg (s.y1 - s.y0)]
    norm_num [hvx, hvy]
    ring
  · simp only [if_neg h0]
    ring

/-- Every record built by buildSegmentGridIndex stores the exact
axis-aligned rectangle of its endpoints. -/
theorem buildSegmentGridIndex_rect (activities : List ProjectedActivitySimple)
    (maxEntries : Option ℕ) (idx : SegmentGridIndex)
    (hb : buildSegmentGridIndex activities maxEntries = some idx) :
    ∀ s ∈ idx.segments, s.minX = min s.x0 s.x1 ∧ s.maxX = max s.x0 s.x1 ∧
      s.minY = min s.y0 s.y1 ∧ s.maxY = max s.y0 s.y1 := by
  intro s hs
  by_cases h1 : activities.length = 0
  · simp [buildSegmentGridIndex, h1] at hb
  · simp only [buildSegmentGridIndex, if_neg h1] at hb
    split_ifs at hb
    obtain rfl : _ = idx := Option.some_injective _ hb
    simp only at hs
    obtain ⟨a, _ha, hsa⟩ := List.mem_flatMap.mp hs
    obtain ⟨iseg, _hiseg, rfl⟩ := List.mem_map.mp hsa
    exact ⟨rfl, rfl, rfl, rfl⟩

/-- From a² ≤ r² with r > 0, both bounds -r ≤ a ≤ r. -/
theorem abs_bound_of_sq_le_sq {a r : ℚ} (h : a ^ 2 ≤ r ^ 2) (hr : 0 < r) :
    -r ≤ a ∧ a ≤ r := by
  constructor <;> nlinarith [sq_nonneg (a + r), sq_nonneg (a - r)]

/-- t * (b - a) interpolates between a and b for t in [0, 1]. -/
theorem convex_between (a b t : ℚ) (h0 : 0 ≤ t) (h1 : t ≤ 1) :
    min a b ≤ a + t * (b - a) ∧ a + t * (b - a) ≤ max a b := by
  rcases le_total a b with hab | hab
  · rw [min_eq_left hab, max_eq_right hab]
    constructor <;> nlinarith
  · rw [min_eq_right hab, max_eq_left hab]
    constructor <;> nlinarith

/-- C4: isPointNearAnySegment is true exactly when some indexed
segment is within clamped-projection distance r of the query point;
the rectangle-overlap prefilter never loses a qualifying segment. -/
theorem isPointNearAnySegment_iff (activities : List ProjectedActivitySimple)
    (maxEntries : Option ℕ) (x y r : ℚ) (hr : 0 < r)
    (idx : SegmentGridIndex) (hb : buildSegmentGridIndex activities maxEntries = some idx) :
    (isPointNearAnySegment (some idx) x y r = true ↔
      ∃ s ∈ idx.segments, clampedProjDistSq x y s ≤ r ^ 2) := by
  have hr' : ¬ r ≤ 0 := not_le.mpr hr
  have hrect := buildSegmentGridIndex_rect activities maxEntries idx hb
  simp only [isPointNearAnySegment, querySegmentsNear, if_neg hr', List.any_eq_true,
    decide_eq_true_eq, segDistSqCode_eq_clamped]
  have hrr : r * r = r ^ 2 := by ring
  rw [hrr]
  constructor
  · rintro ⟨s, hs, hd⟩
    exact ⟨s, (List.mem_filter.mp hs).1, hd⟩
  · rintro ⟨s, hsmem, hd⟩
    obtain ⟨e1, e2, e3, e4⟩ := hrect s hsmem
    obtain ⟨t, ht0, ht1, hd'⟩ : ∃ t : ℚ, 0 ≤ t ∧ t ≤ 1 ∧
        (x - (s.x0 + t * (s.x1 - s.x0))) ^ 2 + (y - (s.y0 + t * (s.y1 - s.y0))) ^ 2 ≤ r ^ 2 :=
      ⟨clampT x y s, le_max_left _ _, max_le (by norm_num) (min_le_left _ _), hd⟩
    set cx := s.x0 + t * (s.x1 - s.x0) with hcx
    set cy := s.y0 + t * (s.y1 - s.y0) with hcy
    have hbx := convex_between s.x0 s.x1 t ht0 ht1
    have hby := convex_between s.y0 s.y1 t ht0 ht1
    have hxcx : (x - cx) ^ 2 ≤ r ^ 2 := by nlinarith [sq_nonneg (y - cy)]
    have hycy : (y - cy) ^ 2 ≤ r ^ 2 := by nlinarith [sq_nonneg (x - cx)]
    obtain ⟨hxa, hxb⟩ := abs_bound_of_sq_le_sq hxcx hr
    obtain ⟨hya, hyb⟩ := abs_bound_of_sq_le_sq hycy hr
    have hx1 : x - r ≤ cx := by linarith
    have hx2 : cx ≤ x + r := by linarith
    have hy1 : y - r ≤ cy := by linarith
    have hy2 : cy ≤ y + r := by linarith
    refine ⟨s, List.mem_filter.mpr ⟨hsmem, decide_eq_true ?_⟩, hd⟩
    refine ⟨?_, ?_, ?_, ?_⟩
    · rw [e1]; exact le_trans hbx.1 hx2
    · rw [e2]; exact le_trans hx1 hbx.2
    · rw [e3]; exact le_trans hby.1 hy2
    · rw [e4]; exact le_trans hy1 hby.2

/-- Witness for C4 at a concrete one-segment activity. -/
theorem isPointNearAnySegment_iff_witness :
    (0 : ℚ) < 2 ∧
    buildSegmentGridIndex [⟨some "a", [⟨0, 0⟩, ⟨10, 0⟩]⟩] none =
      some ⟨[⟨0, 0, 10, 0, some "a", 0, 1, 0, 10, 0, 0⟩], ⟨qfin 0, qfin 10, qfin 0, qfin 0⟩⟩ ∧
    (isPointNearAnySegment
        (some ⟨[⟨0, 0, 10, 0, some "a", 0, 1, 0, 10, 0, 0⟩], ⟨qfin 0, qfin 10, qfin 0, qfin 0⟩⟩)
        5 1 2 = true ↔
      ∃ s ∈ ([⟨0, 0, 10, 0, some "a", 0, 1, 0, 10, 0, 0⟩] : List SegmentRecord),
        clampedProjDistSq 5 1 s ≤ 2 ^ 2) :=
  ⟨by decide, by decide,
    isPointNearAnySegment_iff [⟨some "a", [⟨0, 0⟩, ⟨10, 0⟩]⟩] none 5 1 2 (by decide)
      ⟨[⟨0, 0, 10, 0, some "a", 0, 1, 0, 10, 0, 0⟩], ⟨qfin 0, qfin 10, qfin 0, qfin 0⟩⟩
      (by decide)⟩

section
attribute [local semireducible] Rat.add Rat.sub Rat.mul Rat.inv Rat.ofScientific

/-- C1: at a concrete input with three dense points, an explicit
maxEdgeLength of 4 and mapBounds [0,2] × [0,2], the rim code emits
triangle index 11 while the vertex buffer holds exactly 11 vertices
(valid indices 0..10): the triangle index buffer is out of range,
violating the mesh validity invariant. -/
theorem adaptiveSurfaceGeometry_rim_index_out_of_range :
    (adaptiveSurfaceGeometry [0, 1, 2]
        [⟨1, 1, 0, 0, 0⟩, ⟨2, 1, 0, 0, 0⟩, ⟨1, 2, 0, 0, 0⟩] 4
        (some ⟨0, 2, 0, 2⟩)).positions.length = 11 ∧
    ∃ i ∈ (adaptiveSurfaceGeometry [0, 1, 2]
        [⟨1, 1, 0, 0, 0⟩, ⟨2, 1, 0, 0, 0⟩, ⟨1, 2, 0, 0, 0⟩] 4
        (some ⟨0, 2, 0, 2⟩)).triIdx,
      ¬(i < ((adaptiveSurfaceGeometry [0, 1, 2]
        [⟨1, 1, 0, 0, 0⟩, ⟨2, 1, 0, 0, 0⟩, ⟨1, 2, 0, 0, 0⟩] 4
        (some ⟨0, 2, 0, 2⟩)).positions.length : ℤ)) := by decide

end

/-- C9: densify on the empty activity list with method mls and
density 10 does not throw: it returns ok with an empty densePoints
array and the untouched sentinel bounds, every min field still ⊤
(Infinity) and every max field still ⊥ (-Infinity). -/
theorem densify_empty_mls :
    densify [] (MethodOpt.key DensifyMethodKey.mls) 10 =
      Except.ok ⟨[], ⟨⊤, ⊥, ⊤, ⊥, ⊤, ⊥⟩⟩ := rfl

/-- C6: densify never propagates an exception — for every input and
method it returns ok — and, for any method table whose interpolation
entry is the real interpolation strategy, an exception thrown by the
selected strategy is caught and the interpolation result of the same
inputs is returned. -/
theorem densify_catches_and_falls_back (activities : List PActivity)
    (method : MethodOpt) (density : ℚ) :
    (∃ res, densify activities method density = Except.ok res) ∧
    (∀ tbl : DensifyMethodKey → DensifyMethodEntry,
      (∀ a d, (tbl DensifyMethodKey.interpolation).run a d =
        Except.ok (interpolateDensePoints a d)) →
      (tbl (resolveMethod method)).run activities density = Except.error () →
      densifyWith tbl activities method density =
        Except.ok (interpolateDensePoints activities density)) := by
  constructor
  · cases method with
    | auto => exact ⟨mlsDensification activities density, rfl⟩
    | key k =>
      cases k with
      | mls => exact ⟨mlsDensification activities density, rfl⟩
      | interpolation => exact ⟨interpolateDensePoints activities density, rfl⟩
      | delaunay => exact ⟨delaunayDensification activities density, rfl⟩
  · intro tbl hint herr
    simp only [densifyWith]
    rw [herr]
    exact hint activities density

/-- Witness for C6: a table whose mls entry throws makes densify's
dispatch return the interpolation result of the same inputs. -/
theorem densify_catches_witness :
    (∀ a d, (faultyDensifyMethods DensifyMethodKey.interpolation).run a d =
      Except.ok (interpolateDensePoints a d)) ∧
    (faultyDensifyMethods (resolveMethod MethodOpt.auto)).run [] 10 = Except.error () ∧
    densifyWith faultyDensifyMethods [] MethodOpt.auto 10 =
      Except.ok (interpolateDensePoints [] 10) :=
  ⟨fun _ _ => rfl, rfl,
    (densify_catches_and_falls_back [] MethodOpt.auto 10).2 faultyDensifyMethods
      (fun _ _ => rfl) rfl⟩

/-- C2 counterexample: at density 1/2 on a 250 × 200 extent the source
clamps the density at 1 and returns step 1, while the claim's formula
(1/D with no clamp) gives 2. -/
theorem computeAdaptiveStep_ne_spec :
    computeAdaptiveStep (1/2) 250 200 ≠ specAdaptiveStep (1/2) 250 200 := by
  have h4 : Real.sqrt (4 : ℝ) = 2 := by
    rw [show (4:ℝ) = 2 ^ 2 by norm_num, Real.sqrt_sq (by norm_num : (0:ℝ) ≤ 2)]
  have h1 : computeAdaptiveStep (1/2) 250 200 = 1 := by
    simp only [computeAdaptiveStep]
    norm_num [h4]
  have h2 : specAdaptiveStep (1/2) 250 200 = 2 := by
    simp only [specAdaptiveStep]
    norm_num [h4]
  rw [h1, h2]
  norm_num

/-- The loop count is at most span/step + 1. -/
theorem gridCount_le (span step : ℝ) (hspan : 0 ≤ span) (hstep : 0 < step) :
    (gridCount span step : ℝ) ≤ span / step + 1 := by
  unfold gridCount
  have hq : (0:ℝ) ≤ span / step := by positivity
  have hpos : (0:ℤ) ≤ ⌊span / step⌋ + 1 := by
    have := Int.floor_nonneg.mpr hq
    omega
  have hc : (((⌊span / step⌋ + 1).toNat : ℕ) : ℝ) = ((⌊span / step⌋ : ℤ) : ℝ) + 1 := by
    rw [← Int.cast_natCast, Int.toNat_of_nonneg hpos]
    push_cast
    ring
  rw [hc]
  linarith [Int.floor_le (span / step)]

/-- C2 (amended): for density ≥ 1 and area ≥ 1 the step is exactly
max(1/D, sqrt(W·H/200000)) (the source's clamps are inactive), and the
number of grid cells visited by a min-to-max loop pair with that step
is at most the 200000-sample cap plus boundary terms. -/
theorem computeAdaptiveStep_amended (D W H : ℚ) (hD : 1 ≤ D) (hWH : 1 ≤ W * H)
    (hW : 0 ≤ W) (hH : 0 ≤ H) :
    computeAdaptiveStep D W H = max (1 / (D : ℝ)) (Real.sqrt (((W : ℝ) * (H : ℝ)) / 200000)) ∧
    ((gridCount (W : ℝ) (computeAdaptiveStep D W H) : ℝ) *
        (gridCount (H : ℝ) (computeAdaptiveStep D W H) : ℝ) ≤
      200000 + (((W : ℝ) + (H : ℝ)) / computeAdaptiveStep D W H) + 1) := by
  have hD' : (1 : ℝ) ≤ (D : ℝ) := by exact_mod_cast hD
  have hWH' : (1 : ℝ) ≤ (W : ℝ) * (H : ℝ) := by exact_mod_cast hWH
  have hW' : (0 : ℝ) ≤ (W : ℝ) := by exact_mod_cast hW
  have hH' : (0 : ℝ) ≤ (H : ℝ) := by exact_mod_cast hH
  have heq : computeAdaptiveStep D W H =
      max (1 / (D : ℝ)) (Real.sqrt (((W : ℝ) * (H : ℝ)) / 200000)) := by
    simp only [computeAdaptiveStep]
    rw [max_eq_right hD', max_eq_right hWH']
    norm_num
  refine ⟨heq, ?_⟩
  set s := computeAdaptiveStep D W H with hs
  have hsqrt_le : Real.sqrt (((W : ℝ) * (H : ℝ)) / 200000) ≤ s := by
    rw [heq]
    exact le_max_right _ _
  have hspos : 0 < s := by
    rw [heq]
    have h0 : (0:ℝ) < 1 / (D : ℝ) := by positivity
    exact lt_of_lt_of_le h0 (le_max_left _ _)
  have harg : (0:ℝ) ≤ ((W : ℝ) * (H : ℝ)) / 200000 := by positivity
  have hs2 : ((W : ℝ) * (H : ℝ)) / 200000 ≤ s ^ 2 := by
    have h := Real.sq_sqrt harg
    nlinarith [Real.sqrt_nonneg (((W : ℝ) * (H : ℝ)) / 200000)]
  have hWs := gridCount_le (W : ℝ) s hW' hspos
  have hHs := gridCount_le (H : ℝ) s hH' hspos
  have hHn : (0:ℝ) ≤ (gridCount (H : ℝ) s : ℝ) := Nat.cast_nonneg _
  have hdiv : ((W:ℝ)/s) * ((H:ℝ)/s) ≤ 200000 := by
    rw [div_mul_div_comm, div_le_iff₀ (by positivity)]
    rw [div_le_iff₀ (by norm_num : (0:ℝ) < 200000)] at hs2
    nlinarith
  have hws : (0:ℝ) ≤ (W:ℝ)/s := by positivity
  have hhs : (0:ℝ) ≤ (H:ℝ)/s := by positivity
  have hprod : (gridCount (W : ℝ) s : ℝ) * (gridCount (H : ℝ) s : ℝ) ≤
      ((W:ℝ)/s + 1) * ((H:ℝ)/s + 1) := mul_le_mul hWs hHs hHn (by linarith)
  rw [add_div]
  nlinarith

/-- Witness for C2's amended theorem at density 2 on a 500 × 400
extent (where the visited-cell count 501 · 401 meets the bound with
equality). -/
theorem computeAdaptiveStep_amended_witness :
    (1 : ℚ) ≤ 2 ∧ (1 : ℚ) ≤ 500 * 400 ∧ (0 : ℚ) ≤ 500 ∧ (0 : ℚ) ≤ 400 ∧
    (computeAdaptiveStep 2 500 400 =
        max (1 / ((2 : ℚ) : ℝ)) (Real.sqrt ((((500 : ℚ) : ℝ) * ((400 : ℚ) : ℝ)) / 200000)) ∧
      ((gridCount ((500 : ℚ) : ℝ) (computeAdaptiveStep 2 500 400) : ℝ) *
          (gridCount ((400 : ℚ) : ℝ) (computeAdaptiveStep 2 500 400) : ℝ) ≤
        200000 + ((((500 : ℚ) : ℝ) + ((400 : ℚ) : ℝ)) / computeAdaptiveStep 2 500 400) + 1)) :=
  ⟨by norm_num, by norm_num, by norm_num, by norm_num,
    computeAdaptiveStep_amended 2 500 400 (by norm_num) (by norm_num) (by norm_num)
      (by norm_num)⟩

theorem mem_sampleRange_lt {samples : List Sample} {id : ℕ} {a b c d : ℝ}
    (h : id ∈ sampleRange samples a b c d) : id < samples.length :=
  List.mem_range.mp (List.mem_filter.mp h).1

/-- Unpack membership in altSamples back to an input point. -/
theorem mem_altSamples {activities : List PActivity} {s : Sample}
    (h : s ∈ altSamples activities) :
    ∃ a ∈ activities, ∃ p ∈ a.points, p.altitude = some s.z := by
  simp only [altSamples, List.mem_flatMap, List.mem_filterMap] at h
  obtain ⟨a, ha, p, hp, hsome⟩ := h
  obtain ⟨alt, halt, hg⟩ := Option.map_eq_some'.mp hsome
  subst hg
  exact ⟨a, ha, p, hp, halt⟩

theorem list_sum_map_mul_right {α : Type} (l : List α) (f : α → ℝ) (c : ℝ) :
    (l.map (fun i => f i * c)).sum = (l.map f).sum * c := by
  induction l with
  | nil => simp
  | cons a t ih => simp [ih]; ring

/-- Any dense point an MLS cell emits has its altitude inside any
interval containing every sample altitude: the output is a positively
weighted average. -/
theorem mlsCell_z_bounds {samples : List Sample} {r σ gx gy : ℝ} {dp : DensePointR}
    (hcell : mlsCell samples r σ gx gy = some dp) {m M : ℚ}
    (hm : ∀ s ∈ samples, m ≤ s.z ∧ s.z ≤ M) :
    (m : ℝ) ≤ dp.z ∧ dp.z ≤ (M : ℝ) := by
  simp only [mlsCell] at hcell
  split_ifs at hcell with h1 h2
  obtain rfl := Option.some_injective _ hcell
  set kept := (sampleRange samples (gx - r) (gy - r) (gx + r) (gy + r)).filter
    (fun id => decide (sampleD2 (samples.getD id default) gx gy ≤ r * r)) with hkept
  have hmem : ∀ id ∈ kept, samples.getD id default ∈ samples := by
    intro id hid
    have hlt : id < samples.length := mem_sampleRange_lt (List.mem_filter.mp hid).1
    rw [List.getD_eq_getElem _ _ hlt]
    exact List.getElem_mem hlt
  have hkne : kept ≠ [] := by
    intro h0
    apply h2
    rw [h0]
    simp
  have hwpos : ∀ id : ℕ, 0 < gaussWeight σ (sampleD2 (samples.getD id default) gx gy) :=
    fun _ => Real.exp_pos _
  have hwsum_pos : 0 < (kept.map (fun id =>
      gaussWeight σ (sampleD2 (samples.getD id default) gx gy))).sum := by
    apply List.sum_pos
    · intro x hx
      obtain ⟨id, _, rfl⟩ := List.mem_map.mp hx
      exact hwpos id
    · simpa using hkne
  have hlow : (kept.map (fun id =>
      gaussWeight σ (sampleD2 (samples.getD id default) gx gy))).sum * (m : ℝ) ≤
      (kept.map (fun id =>
        gaussWeight σ (sampleD2 (samples.getD id default) gx gy) *
          ((samples.getD id default).z : ℝ))).sum := by
    rw [← list_sum_map_mul_right]
    apply List.sum_le_sum
    intro id hid
    have hz := (hm _ (hmem id hid)).1
    have hz' : (m : ℝ) ≤ ((samples.getD id default).z : ℝ) := by exact_mod_cast hz
    exact mul_le_mul_of_nonneg_left hz' (le_of_lt (hwpos id))
  have hhigh : (kept.map (fun id =>
      gaussWeight σ (sampleD2 (samples.getD id default) gx gy) *
        ((samples.getD id default).z : ℝ))).sum ≤
      (kept.map (fun id =>
        gaussWeight σ (sampleD2 (samples.getD id default) gx gy))).sum * (M : ℝ) := by
    rw [← list_sum_map_mul_right]
    apply List.sum_le_sum
    intro id hid
    have hz := (hm _ (hmem id hid)).2
    have hz' : ((samples.getD id default).z : ℝ) ≤ (M : ℝ) := by exact_mod_cast hz
    exact mul_le_mul_of_nonneg_left hz' (le_of_lt (hwpos id))
  constructor
  · show (m : ℝ) ≤ _ / _
    rw [le_div_iff₀ hwsum_pos]
    calc (m : ℝ) * _ = _ * (m : ℝ) := mul_comm _ _
    _ ≤ _ := hlow
  · show _ / _ ≤ (M : ℝ)
    rw [div_le_iff₀ hwsum_pos]
    calc _ ≤ _ * (M : ℝ) := hhigh
    _ = (M : ℝ) * _ := mul_comm _ _

/-- Every dense point of mlsDensification comes from some grid cell. -/
theorem mls_mem_cell {activities : List PActivity} {density : ℚ} {dp : DensePointR}
    (h : dp ∈ (mlsDensification activities density).densePoints) :
    ∃ r σ gx gy, mlsCell (altSamples activities) r σ gx gy = some dp := by
  by_cases hs : altSamples activities = []
  · simp [mlsDensification, hs] at h
  · simp only [mlsDensification, if_neg hs, List.mem_flatMap, List.mem_filterMap,
      List.mem_range] at h
    obtain ⟨i, _hi, j, _hj, hcell⟩ := h
    exact ⟨_, _, _, _, hcell⟩

/-- mlsDensification returns the altitude-sample extrema as bounds in
both branches. -/
theorem mls_bounds_eq (activities : List PActivity) (density : ℚ) :
    (mlsDensification activities density).bounds = altBounds activities := by
  by_cases hs : altSamples activities = [] <;> simp [mlsDensification, hs]

/-- C10: every dense point produced by MLS densification has altitude
between the minimum and maximum input sample altitude, and the
returned minZ/maxZ bounds are exactly those extrema, hence every
output altitude lies within the returned bounds. -/
theorem mlsDensification_z_within_input_range (activities : List PActivity) (density : ℚ)
    (hne : altSamples activities ≠ []) :
    (mlsDensification activities density).bounds.minZ =
      qfin (qListMin ((altSamples activities).map (fun s => s.z))) ∧
    (mlsDensification activities density).bounds.maxZ =
      qfin (qListMax ((altSamples activities).map (fun s => s.z))) ∧
    ∀ dp ∈ (mlsDensification activities density).densePoints,
      ((qListMin ((altSamples activities).map (fun s => s.z)) : ℚ) : ℝ) ≤ dp.z ∧
        dp.z ≤ ((qListMax ((altSamples activities).map (fun s => s.z)) : ℚ) : ℝ) := by
  refine ⟨?_, ?_, ?_⟩
  · rw [mls_bounds_eq]
    simp only [altBounds]
    exact qinf_foldl_min_top (fun s => s.z) _ hne
  · rw [mls_bounds_eq]
    simp only [altBounds]
    exact qinf_foldl_max_bot (fun s => s.z) _ hne
  · intro dp hdp
    obtain ⟨r, σ, gx, gy, hcell⟩ := mls_mem_cell hdp
    exact mlsCell_z_bounds hcell (fun s hs =>
      ⟨qListMin_le (List.mem_map_of_mem _ hs), le_qListMax (List.mem_map_of_mem _ hs)⟩)

/-- Witness for C10 at a one-activity input with altitudes 5, 7, 6. -/
theorem mlsDensification_z_within_input_range_witness :
    altSamples [⟨"a", "act", [⟨0, 0, 0, 0, 0, some 5⟩, ⟨1, 0, 0, 0, 0, some 7⟩,
        ⟨0, 1, 0, 0, 0, some 6⟩], "red"⟩] ≠ [] ∧
    ((mlsDensification [⟨"a", "act", [⟨0, 0, 0, 0, 0, some 5⟩, ⟨1, 0, 0, 0, 0, some 7⟩,
          ⟨0, 1, 0, 0, 0, some 6⟩], "red"⟩] 10).bounds.minZ =
        qfin (qListMin ((altSamples [⟨"a", "act", [⟨0, 0, 0, 0, 0, some 5⟩,
          ⟨1, 0, 0, 0, 0, some 7⟩, ⟨0, 1, 0, 0, 0, some 6⟩], "red"⟩]).map (fun s => s.z))) ∧
      (mlsDensification [⟨"a", "act", [⟨0, 0, 0, 0, 0, some 5⟩, ⟨1, 0, 0, 0, 0, some 7⟩,
          ⟨0, 1, 0, 0, 0, some 6⟩], "red"⟩] 10).bounds.maxZ =
        qfin (qListMax ((altSamples [⟨"a", "act", [⟨0, 0, 0, 0, 0, some 5⟩,
          ⟨1, 0, 0, 0, 0, some 7⟩, ⟨0, 1, 0, 0, 0, some 6⟩], "red"⟩]).map (fun s => s.z))) ∧
      ∀ dp ∈ (mlsDensification [⟨"a", "act", [⟨0, 0, 0, 0, 0, some 5⟩,
          ⟨1, 0, 0, 0, 0, some 7⟩, ⟨0, 1, 0, 0, 0, some 6⟩], "red"⟩] 10).densePoints,
        ((qListMin ((altSamples [⟨"a", "act", [⟨0, 0, 0, 0, 0, some 5⟩,
          ⟨1, 0, 0, 0, 0, some 7⟩, ⟨0, 1, 0, 0, 0, some 6⟩], "red"⟩]).map (fun s => s.z)) : ℚ) : ℝ)
            ≤ dp.z ∧
          dp.z ≤ ((qListMax ((altSamples [⟨"a", "act", [⟨0, 0, 0, 0, 0, some 5⟩,
            ⟨1, 0, 0, 0, 0, some 7⟩, ⟨0, 1, 0, 0, 0, some 6⟩], "red"⟩]).map
              (fun s => s.z)) : ℚ) : ℝ)) :=
  ⟨by decide, mlsDensification_z_within_input_range _ 10 (by decide)⟩

/-- C8: when every altitude carried by the input is 100, every dense
point MLS produces at density 5 has altitude 100 up to 1e-6 (in fact
exactly 100: a Gaussian-weighted average of a constant field). -/
theorem mlsDensification_constant_altitude (activities : List PActivity)
    (hconst : ∀ a ∈ activities, ∀ p ∈ a.points,
      p.altitude = none ∨ p.altitude = some 100) :
    ∀ dp ∈ (mlsDensification activities 5).densePoints, |dp.z - 100| ≤ 1 / 1000000 := by
  intro dp hdp
  obtain ⟨r, σ, gx, gy, hcell⟩ := mls_mem_cell hdp
  have hsz : ∀ s ∈ altSamples activities, (100 : ℚ) ≤ s.z ∧ s.z ≤ 100 := by
    intro s hs
    obtain ⟨a, ha, p, hp, halt⟩ := mem_altSamples hs
    rcases hconst a ha p hp with hnone | h100
    · rw [hnone] at halt
      exact absurd halt (by simp)
    · rw [h100] at halt
      have h2 : (100 : ℚ) = s.z := Option.some_injective _ halt
      rw [← h2]
      exact ⟨le_refl _, le_refl _⟩
  have hb := mlsCell_z_bounds hcell hsz
  have hz : dp.z = 100 := by
    have h1 : ((100 : ℚ) : ℝ) = 100 := by norm_num
    rw [h1] at hb
    linarith [hb.1, hb.2]
  rw [hz]
  norm_num

/-- Witness for C8 at a single track of three points at constant
altitude 100. -/
theorem mlsDensification_constant_altitude_witness :
    (∀ a ∈ [(⟨"a", "act", [⟨0, 0, 0, 0, 0, some 100⟩, ⟨1, 0, 0, 0, 0, some 100⟩,
        ⟨0, 1, 0, 0, 0, some 100⟩], "red"⟩ : PActivity)], ∀ p ∈ a.points,
      p.altitude = none ∨ p.altitude = some 100) ∧
    ∀ dp ∈ (mlsDensification [⟨"a", "act", [⟨0, 0, 0, 0, 0, some 100⟩,
        ⟨1, 0, 0, 0, 0, some 100⟩, ⟨0, 1, 0, 0, 0, some 100⟩], "red"⟩] 5).densePoints,
      |dp.z - 100| ≤ 1 / 1000000 :=
  ⟨by decide, mlsDensification_constant_altitude _ (by decide)⟩
